import Mathlib

/-!
A shallow embedding of the `BareEmitter` class from `src/unnamed/part_000`
(the methods `on`, `off`, `once`, `emit` on the private field
`events: { [key: string]: Listener[] }`).

Modelling choices:
* Function values (listeners) are represented by numeric identifiers (`Nat`);
  reference identity of function values becomes equality of identifiers.
* The behaviour attached to each function value lives in an environment
  `env : List (Nat × Behavior)`.  A plain user listener carries the list of
  commands it performs on the emitter when invoked (registering,
  deregistering, re-entrant emitting, or throwing); the closure created by
  `once` is the distinguished `Behavior.wrapper` mirroring the source's
  `onceWrapper` (it knows the event name, the inner listener and its own
  identity, exactly the variables the source closure captures).
* `events` is an association list with distinct keys, mirroring the object
  `private events: { [key: string]: Listener[] } = {}` (absent key = `none`).
* The variadic argument tuple `...args` is modelled as a `List Nat` in spread
  order.
* Every invocation of a listener is recorded in `log` (identifier paired with
  the exact arguments received): the log is the observable trace of
  invocations.
* A thrown exception is a boolean flag threaded through execution; `emit`
  yields `some b` on a normal return of `b`, and `none` when a listener's
  exception propagates out of `emit`.
* Re-entrant execution is interpreted with explicit fuel; running out of fuel
  models stack exhaustion and is reported as a thrown exception.
-/

namespace BareEmitter

abbrev EventName := String

abbrev Args := List Nat

/-- Commands a user listener body may perform on the emitter when invoked:
the four public methods, plus throwing an exception. -/
inductive Cmd : Type where
  | onC : EventName → Nat → Cmd
  | offTargetC : EventName → Nat → Cmd
  | offAllC : EventName → Cmd
  | onceC : EventName → Nat → Cmd
  | emitC : EventName → Args → Cmd
  | throwC : Cmd
deriving DecidableEq, Repr

/-- The behaviour bound to a function identifier: either a user listener
(its effect on the emitter as a command list), or the `onceWrapper` closure
created by `once` — `wrapper e inner self` invokes `inner` with the received
arguments and then performs `off e self` (source lines 75–78). -/
inductive Behavior : Type where
  | user : List Cmd → Behavior
  | wrapper : EventName → Nat → Nat → Behavior
deriving DecidableEq, Repr

/-- The emitter together with the ambient world of function values:
`events` is the private registry, `env` binds function identifiers to
behaviours, `nextId` is the next fresh identifier (used when `once` creates
its wrapper closure), and `log` records each listener invocation with the
arguments it received. -/
structure EmitterState : Type where
  events : List (EventName × List Nat)
  env : List (Nat × Behavior)
  nextId : Nat
  log : List (Nat × Args)
deriving DecidableEq, Repr

/-- `this.events[eventName]` — key lookup in the registry object
(`none` plays the role of `undefined`). -/
def lookupEvents : List (EventName × List Nat) → EventName → Option (List Nat)
  | [], _ => none
  | (e', ls) :: rest, e => if e' = e then some ls else lookupEvents rest e

/-- `this.events[eventName] = ls` — assignment to a key of the registry
object (overwrites the existing binding, or appends a new one). -/
def setEvents : List (EventName × List Nat) → EventName → List Nat →
    List (EventName × List Nat)
  | [], e, ls => [(e, ls)]
  | (e', ls') :: rest, e, ls =>
      if e' = e then (e, ls) :: rest else (e', ls') :: setEvents rest e ls

/-- `delete this.events[eventName]` — removal of a key from the registry
object. -/
def deleteEvents : List (EventName × List Nat) → EventName →
    List (EventName × List Nat)
  | [], _ => []
  | (e', ls') :: rest, e =>
      if e' = e then deleteEvents rest e else (e', ls') :: deleteEvents rest e

/-- Lookup of the behaviour bound to a function identifier. -/
def lookupEnv : List (Nat × Behavior) → Nat → Option Behavior
  | [], _ => none
  | (i, b) :: rest, f => if i = f then some b else lookupEnv rest f

/-- `on(eventName, listener)` (source lines 35–38):
`if (!this.events[eventName]) this.events[eventName] = [];`
`this.events[eventName].push(listener);` -/
def onOp (s : EmitterState) (e : EventName) (f : Nat) : EmitterState :=
  match lookupEvents s.events e with
  | none => { s with events := setEvents s.events e [f] }
  | some ls => { s with events := setEvents s.events e (ls ++ [f]) }

/-- `off(eventName, listener?)` (source lines 53–60):
`if (!this.events[eventName]) return;`
`if (listener) { this.events[eventName] = this.events[eventName].filter(fn => fn !== listener); }`
`else { delete this.events[eventName]; }` -/
def offOp (s : EmitterState) (e : EventName) (f : Option Nat) : EmitterState :=
  match lookupEvents s.events e with
  | none => s
  | some ls =>
      match f with
      | some g =>
          { s with events := setEvents s.events e (ls.filter (fun x => x ≠ g)) }
      | none => { s with events := deleteEvents s.events e }

/-- `once(eventName, listener)` (source lines 74–80): creates the
`onceWrapper` closure as a fresh function value and registers it via `on`. -/
def onceOp (s : EmitterState) (e : EventName) (f : Nat) : EmitterState :=
  onOp { s with
          env := s.env ++ [(s.nextId, Behavior.wrapper e f s.nextId)],
          nextId := s.nextId + 1 }
    e s.nextId

/-- `[...listeners].forEach(fn => fn(...args))` (source line 98), abstracted
over the interpretation `inv` of a single invocation: runs the snapshotted
identifiers in order, stopping at (and propagating) the first exception. -/
def runInvokeList (inv : Nat → Args → EmitterState → EmitterState × Bool) :
    List Nat → Args → EmitterState → EmitterState × Bool
  | [], _, s => (s, false)
  | f :: fs, args, s =>
      match inv f args s with
      | (s', true) => (s', true)
      | (s', false) => runInvokeList inv fs args s'

/-- `emit(eventName, ...args)` (source lines 94–100):
`const listeners = this.events[eventName];`
`if (!listeners || listeners.length === 0) return false;`
`[...listeners].forEach(fn => fn(...args));`
`return true;`
The list `ls` bound before any invocation is exactly the snapshot the source
takes with `[...listeners]`.  Result `some b` is a normal return of `b`;
`none` means a listener's exception propagated out of `emit`. -/
def runEmit (inv : Nat → Args → EmitterState → EmitterState × Bool)
    (e : EventName) (args : Args) (s : EmitterState) :
    EmitterState × Option Bool :=
  match lookupEvents s.events e with
  | none => (s, some false)
  | some ls =>
      if ls.length = 0 then (s, some false)
      else
        match runInvokeList inv ls args s with
        | (s', true) => (s', none)
        | (s', false) => (s', some true)

/-- Effect of one command of a listener body (the listener calling one of the
emitter's methods, or throwing).  The boolean result of a nested `emit` is
discarded, as in the source, where listener bodies are statements. -/
def runCmd (inv : Nat → Args → EmitterState → EmitterState × Bool) :
    Cmd → EmitterState → EmitterState × Bool
  | Cmd.onC e f, s => (onOp s e f, false)
  | Cmd.offTargetC e f, s => (offOp s e (some f), false)
  | Cmd.offAllC e, s => (offOp s e none, false)
  | Cmd.onceC e f, s => (onceOp s e f, false)
  | Cmd.emitC e args, s =>
      match runEmit inv e args s with
      | (s', some _) => (s', false)
      | (s', none) => (s', true)
  | Cmd.throwC, s => (s, true)

/-- A listener body: commands in sequence, stopping at the first exception. -/
def runCmds (inv : Nat → Args → EmitterState → EmitterState × Bool) :
    List Cmd → EmitterState → EmitterState × Bool
  | [], s => (s, false)
  | c :: cs, s =>
      match runCmd inv c s with
      | (s', true) => (s', true)
      | (s', false) => runCmds inv cs s'

/-- One invocation step `fn(...args)`, given the interpretation `rec` of
invocations one call-depth deeper: the invocation is recorded in the log, and
the behaviour bound to the identifier runs.  The `onceWrapper` behaviour is
the source's `(...args) => { listener(...args); this.off(eventName, onceWrapper); }`:
the inner listener runs first, removal happens only after it returns (and not
at all if it throws). -/
def invokeF (rec : Nat → Args → EmitterState → EmitterState × Bool)
    (f : Nat) (args : Args) (s : EmitterState) : EmitterState × Bool :=
  let s1 : EmitterState := { s with log := s.log ++ [(f, args)] }
  match lookupEnv s.env f with
  | none => (s1, false)
  | some (Behavior.user body) => runCmds rec body s1
  | some (Behavior.wrapper e inner self) =>
      match rec inner args s1 with
      | (s2, true) => (s2, true)
      | (s2, false) => (offOp s2 e (some self), false)

/-- Fueled interpretation of a single invocation; fuel `0` models stack
exhaustion, reported as a thrown exception. -/
def invoke : Nat → Nat → Args → EmitterState → EmitterState × Bool
  | 0 => fun _ _ s => (s, true)
  | Nat.succ fuel => invokeF (invoke fuel)

/-- The public `emit` at a given fuel. -/
def emitOp (fuel : Nat) (e : EventName) (args : Args) (s : EmitterState) :
    EmitterState × Option Bool :=
  runEmit (invoke fuel) e args s

/-- The state reached by invoking each identifier of `fs` in order (each with
arguments `args`), ignoring the thrown flags. -/
def invokeChain (inv : Nat → Args → EmitterState → EmitterState × Bool)
    (args : Args) : List Nat → EmitterState → EmitterState
  | [], s => s
  | f :: fs, s => invokeChain inv args fs (inv f args s).1

/-- `true` when invoking each identifier of `fs` in order from `s` raises no
exception at any step. -/
def noThrowChain (inv : Nat → Args → EmitterState → EmitterState × Bool)
    (args : Args) : List Nat → EmitterState → Bool
  | [], _ => true
  | f :: fs, s => !(inv f args s).2 && noThrowChain inv args fs (inv f args s).1

/-! ### Concrete fixtures -/

/-- A fresh emitter in a world with one inert listener `1`. -/
def initZ : EmitterState :=
  { events := [], env := [(1, Behavior.user [])], nextId := 2, log := [] }

/-- Listener `1` (registered for `"e"`) adds listener `2` for `"e"` when
invoked. -/
def addScenario : EmitterState :=
  { events := [("e", [1])],
    env := [(1, Behavior.user [Cmd.onC "e" 2]), (2, Behavior.user [])],
    nextId := 3, log := [] }

/-- Listeners `1` and `2` registered for `"e"`; listener `1` removes
listener `2` when invoked. -/
def removeScenario : EmitterState :=
  { events := [("e", [1, 2])],
    env := [(1, Behavior.user [Cmd.offTargetC "e" 2]), (2, Behavior.user [])],
    nextId := 3, log := [] }

/-- `once("e", 1)` where listener `1` re-entrantly emits `"e"` from inside
its own body; the wrapper receives identifier `2`. -/
def reentrantScenario : EmitterState :=
  onceOp
    { events := [], env := [(1, Behavior.user [Cmd.emitC "e" []])],
      nextId := 2, log := [] }
    "e" 1

/-- `on("x", f)` then `on("x", g)` with inert `f = 1`, `g = 2`. -/
def fgScenario : EmitterState :=
  { events := [("x", [1, 2])],
    env := [(1, Behavior.user []), (2, Behavior.user [])],
    nextId := 3, log := [] }

/-- The same inert listener `1` registered twice for `"d"`. -/
def dupScenario : EmitterState :=
  { events := [("d", [1, 1])],
    env := [(1, Behavior.user [])], nextId := 2, log := [] }

/-- Three listeners for `"t"`; the middle one throws. -/
def throwScenario : EmitterState :=
  { events := [("t", [1, 2, 3])],
    env := [(1, Behavior.user []), (2, Behavior.user [Cmd.throwC]),
            (3, Behavior.user [])],
    nextId := 4, log := [] }

/-- A fresh emitter in a world with one inert listener `1`, about to be
registered via `once`. -/
def onceBase : EmitterState :=
  { events := [], env := [(1, Behavior.user [])], nextId := 2, log := [] }

/-- `once("e", 1)` with inert listener `1`; the wrapper receives
identifier `2`. -/
def onceScenario : EmitterState := onceOp onceBase "e" 1

/-! ### Registry lemmas -/

theorem lookupEvents_set_self (evs : List (EventName × List Nat))
    (e : EventName) (ls : List Nat) :
    lookupEvents (setEvents evs e ls) e = some ls := by
  induction evs with
  | nil => simp [setEvents, lookupEvents]
  | cons p rest ih =>
      obtain ⟨e', ls'⟩ := p
      by_cases h : e' = e
      · simp [setEvents, lookupEvents, h]
      · simp [setEvents, lookupEvents, h, ih]

theorem lookupEvents_set_other (evs : List (EventName × List Nat))
    (e e' : EventName) (ls : List Nat) (h : e ≠ e') :
    lookupEvents (setEvents evs e ls) e' = lookupEvents evs e' := by
  induction evs with
  | nil => simp [setEvents, lookupEvents, h]
  | cons p rest ih =>
      obtain ⟨e'', ls''⟩ := p
      by_cases h2 : e'' = e
      · subst h2
        simp [setEvents, lookupEvents, h]
      · simp [setEvents, lookupEvents, h2, ih]

theorem lookupEvents_delete_self (evs : List (EventName × List Nat))
    (e : EventName) :
    lookupEvents (deleteEvents evs e) e = none := by
  induction evs with
  | nil => simp [deleteEvents, lookupEvents]
  | cons p rest ih =>
      obtain ⟨e', ls'⟩ := p
      by_cases h : e' = e
      · simp [deleteEvents, h, ih]
      · simp [deleteEvents, lookupEvents, h, ih]

theorem lookupEvents_delete_other (evs : List (EventName × List Nat))
    (e e' : EventName) (h : e ≠ e') :
    lookupEvents (deleteEvents evs e) e' = lookupEvents evs e' := by
  induction evs with
  | nil => simp [deleteEvents]
  | cons p rest ih =>
      obtain ⟨e'', ls''⟩ := p
      by_cases h2 : e'' = e
      · subst h2
        simp [deleteEvents, lookupEvents, h, ih]
      · simp [deleteEvents, lookupEvents, h2, ih]

theorem setEvents_setEvents (evs : List (EventName × List Nat))
    (e : EventName) (a b : List Nat) :
    setEvents (setEvents evs e a) e b = setEvents evs e b := by
  induction evs with
  | nil => simp [setEvents]
  | cons p rest ih =>
      obtain ⟨e', ls'⟩ := p
      by_cases h : e' = e
      · simp [setEvents, h]
      · simp [setEvents, h, ih]

theorem lookupEnv_append_of_some (env tail : List (Nat × Behavior))
    (f : Nat) (b : Behavior) (h : lookupEnv env f = some b) :
    lookupEnv (env ++ tail) f = some b := by
  induction env with
  | nil => simp [lookupEnv] at h
  | cons p rest ih =>
      obtain ⟨i, b'⟩ := p
      by_cases h2 : i = f
      · simp [lookupEnv, h2] at h ⊢
        exact h
      · simp [lookupEnv, h2] at h ⊢
        exact ih h

theorem lookupEnv_append_fresh (env : List (Nat × Behavior))
    (w : Nat) (b : Behavior) (h : lookupEnv env w = none) :
    lookupEnv (env ++ [(w, b)]) w = some b := by
  induction env with
  | nil => simp [lookupEnv]
  | cons p rest ih =>
      obtain ⟨i, b'⟩ := p
      by_cases h2 : i = w
      · simp [lookupEnv, h2] at h
      · simp [lookupEnv, h2] at h ⊢
        exact ih h

/-! ### Operation lemmas -/

theorem onOp_absent (s : EmitterState) (e : EventName) (f : Nat)
    (h : lookupEvents s.events e = none) :
    onOp s e f = { s with events := setEvents s.events e [f] } := by
  simp [onOp, h]

theorem onOp_present (s : EmitterState) (e : EventName) (f : Nat)
    (ls : List Nat) (h : lookupEvents s.events e = some ls) :
    onOp s e f = { s with events := setEvents s.events e (ls ++ [f]) } := by
  simp [onOp, h]

theorem offOp_absent (s : EmitterState) (e : EventName) (f : Option Nat)
    (h : lookupEvents s.events e = none) : offOp s e f = s := by
  simp [offOp, h]

theorem offOp_target (s : EmitterState) (e : EventName) (f : Nat)
    (ls : List Nat) (h : lookupEvents s.events e = some ls) :
    offOp s e (some f) =
      { s with events := setEvents s.events e (ls.filter (fun x => x ≠ f)) } := by
  simp [offOp, h]

theorem offOp_all (s : EmitterState) (e : EventName) (ls : List Nat)
    (h : lookupEvents s.events e = some ls) :
    offOp s e none = { s with events := deleteEvents s.events e } := by
  simp [offOp, h]

theorem lookupEvents_offOp_all (s : EmitterState) (e : EventName) :
    lookupEvents (offOp s e none).events e = none := by
  match h : lookupEvents s.events e with
  | none => rw [offOp_absent s e none h, h]
  | some ls =>
      rw [offOp_all s e ls h]
      exact lookupEvents_delete_self s.events e

/-! ### Interpreter lemmas -/

theorem runEmit_absent (inv : Nat → Args → EmitterState → EmitterState × Bool)
    (e : EventName) (args : Args) (s : EmitterState)
    (h : lookupEvents s.events e = none) :
    runEmit inv e args s = (s, some false) := by
  simp [runEmit, h]

theorem runEmit_nil (inv : Nat → Args → EmitterState → EmitterState × Bool)
    (e : EventName) (args : Args) (s : EmitterState)
    (h : lookupEvents s.events e = some []) :
    runEmit inv e args s = (s, some false) := by
  simp [runEmit, h]

theorem invoke_user_nil (fuel : Nat) (f : Nat) (args : Args)
    (s : EmitterState) (h : lookupEnv s.env f = some (Behavior.user [])) :
    invoke (fuel + 1) f args s =
      ({ s with log := s.log ++ [(f, args)] }, false) := by
  simp [invoke, invokeF, h, runCmds]

theorem invoke_wrapper_step (fuel : Nat) (w f : Nat) (e : EventName)
    (args : Args) (s : EmitterState)
    (hw : lookupEnv s.env w = some (Behavior.wrapper e f w))
    (hnothrow : (invoke fuel f args { s with log := s.log ++ [(w, args)] }).2
      = false) :
    invoke (fuel + 1) w args s =
      (offOp (invoke fuel f args { s with log := s.log ++ [(w, args)] }).1
        e (some w), false) := by
  obtain ⟨s2, b, hpair⟩ :
      ∃ p q, invoke fuel f args { s with log := s.log ++ [(w, args)] } = (p, q) :=
    ⟨_, _, rfl⟩
  rw [hpair] at hnothrow
  simp at hnothrow
  subst hnothrow
  show invokeF (invoke fuel) w args s = _
  simp [invokeF, hw, hpair]

theorem runInvokeList_chain
    (inv : Nat → Args → EmitterState → EmitterState × Bool) (args : Args) :
    ∀ (fs : List Nat) (s : EmitterState),
    noThrowChain inv args fs s = true →
    runInvokeList inv fs args s = (invokeChain inv args fs s, false) := by
  intro fs
  induction fs with
  | nil => intro s _; simp [runInvokeList, invokeChain]
  | cons f fs ih =>
      intro s h
      rw [noThrowChain] at h
      rw [Bool.and_eq_true] at h
      obtain ⟨h1, h2⟩ := h
      rw [Bool.not_eq_true'] at h1
      rw [runInvokeList]
      rw [invokeChain]
      obtain ⟨s', b, hpair⟩ :
          ∃ p q, inv f args s = (p, q) := ⟨_, _, rfl⟩
      rw [hpair] at h1 h2 ⊢
      subst h1
      exact ih s' h2

theorem runInvokeList_throw
    (inv : Nat → Args → EmitterState → EmitterState × Bool) (args : Args)
    (k : Nat) (post : List Nat) :
    ∀ (pre : List Nat) (s : EmitterState),
    noThrowChain inv args pre s = true →
    (inv k args (invokeChain inv args pre s)).2 = true →
    runInvokeList inv (pre ++ k :: post) args s =
      ((inv k args (invokeChain inv args pre s)).1, true) := by
  intro pre
  induction pre with
  | nil =>
      intro s _ hk
      rw [invokeChain] at hk ⊢
      rw [List.nil_append, runInvokeList]
      obtain ⟨s', b, hpair⟩ : ∃ p q, inv k args s = (p, q) := ⟨_, _, rfl⟩
      rw [hpair] at hk ⊢
      simp at hk
      subst hk
      rfl
  | cons f fs ih =>
      intro s h hk
      rw [noThrowChain, Bool.and_eq_true] at h
      obtain ⟨h1, h2⟩ := h
      rw [Bool.not_eq_true'] at h1
      rw [invokeChain] at hk ⊢
      rw [List.cons_append, runInvokeList]
      obtain ⟨s', b, hpair⟩ : ∃ p q, inv f args s = (p, q) := ⟨_, _, rfl⟩
      rw [hpair] at h1 h2 hk ⊢
      subst h1
      exact ih s' h2 hk

theorem runInvokeList_pure (fuel : Nat) (args : Args) :
    ∀ (fs : List Nat) (s : EmitterState),
    (∀ f ∈ fs, lookupEnv s.env f = some (Behavior.user [])) →
    runInvokeList (invoke (fuel + 1)) fs args s =
      ({ s with log := s.log ++ fs.map (fun f => (f, args)) }, false) := by
  intro fs
  induction fs with
  | nil => intro s _; simp [runInvokeList]
  | cons f fs ih =>
      intro s h
      rw [runInvokeList, invoke_user_nil fuel f args s (h f (by simp))]
      show runInvokeList (invoke (fuel + 1)) fs args
        { s with log := s.log ++ [(f, args)] } = _
      rw [ih { s with log := s.log ++ [(f, args)] }
        (fun g hg => h g (List.mem_cons_of_mem f hg))]
      simp

theorem runEmit_pure (fuel : Nat) (s : EmitterState) (e : EventName)
    (ls : List Nat) (args : Args)
    (hls : lookupEvents s.events e = some ls) (hne : ls ≠ [])
    (hpure : ∀ f ∈ ls, lookupEnv s.env f = some (Behavior.user [])) :
    runEmit (invoke (fuel + 1)) e args s =
      ({ s with log := s.log ++ ls.map (fun f => (f, args)) }, some true) := by
  rw [runEmit, hls]
  simp only [List.length_eq_zero]
  rw [if_neg hne]
  rw [runInvokeList_pure fuel args ls s hpure]

theorem runEmit_chain
    (inv : Nat → Args → EmitterState → EmitterState × Bool)
    (e : EventName) (args : Args) (s : EmitterState) (ls : List Nat)
    (hls : lookupEvents s.events e = some ls) (hne : ls ≠ [])
    (hnt : noThrowChain inv args ls s = true) :
    runEmit inv e args s = (invokeChain inv args ls s, some true) := by
  rw [runEmit, hls]
  simp only [List.length_eq_zero]
  rw [if_neg hne]
  rw [runInvokeList_chain inv args ls s hnt]

theorem runEmit_once (fuel : Nat) (s : EmitterState) (e : EventName)
    (f w : Nat) (args : Args)
    (hv : lookupEvents s.events e = some [w])
    (hw : lookupEnv s.env w = some (Behavior.wrapper e f w))
    (hf : lookupEnv s.env f = some (Behavior.user [])) :
    runEmit (invoke (fuel + 2)) e args s =
      ({ s with events := setEvents s.events e [],
                log := s.log ++ [(w, args), (f, args)] }, some true) := by
  have hf' : lookupEnv
      ({ s with log := s.log ++ [(w, args)] } : EmitterState).env f
      = some (Behavior.user []) := hf
  have hinner : invoke (fuel + 1) f args { s with log := s.log ++ [(w, args)] }
      = ({ s with log := s.log ++ [(w, args), (f, args)] }, false) := by
    rw [invoke_user_nil fuel f args _ hf']
    simp
  have hstep : invoke (fuel + 2) w args s =
      (offOp { s with log := s.log ++ [(w, args), (f, args)] } e (some w),
        false) := by
    have h1 := invoke_wrapper_step (fuel + 1) w f e args s hw
      (by rw [hinner])
    rw [hinner] at h1
    exact h1
  have hoff : offOp { s with log := s.log ++ [(w, args), (f, args)] } e (some w)
      = { s with events := setEvents s.events e [],
                 log := s.log ++ [(w, args), (f, args)] } := by
    rw [offOp_target { s with log := s.log ++ [(w, args), (f, args)] } e w [w] hv]
    simp
  have hrun : runInvokeList (invoke (fuel + 2)) [w] args s =
      ({ s with events := setEvents s.events e [],
                log := s.log ++ [(w, args), (f, args)] }, false) := by
    rw [runInvokeList, hstep, hoff]
    rfl
  rw [runEmit, hv]
  simp only [List.length_eq_zero]
  rw [if_neg (by simp : ¬ ([w] : List Nat) = [])]
  rw [hrun]

/-! ### Claims -/

/-- Claim C5: for every event name with no currently registered listeners —
whether never registered, or emptied via `off` — `emit` returns `false`,
invokes no listener and leaves the state unchanged; concretely, after
`on("z", 1)`; `off("z", 1)`, `emit("z")` returns `false`, and emitting a
never-registered name on a fresh emitter returns `false`. -/
theorem emit_no_listeners_false (fuel : Nat) (s : EmitterState)
    (e : EventName) (args : Args)
    (h : lookupEvents s.events e = none ∨ lookupEvents s.events e = some []) :
    emitOp fuel e args s = (s, some false)
    ∧ emitOp 9 "z" [] (offOp (onOp initZ "z" 1) "z" (some 1)) =
        (offOp (onOp initZ "z" 1) "z" (some 1), some false)
    ∧ emitOp 9 "w" [] initZ = (initZ, some false) := by
  refine ⟨?_, by decide, by decide⟩
  cases h with
  | inl h => exact runEmit_absent _ e args s h
  | inr h => exact runEmit_nil _ e args s h

theorem emit_no_listeners_false_witness :
    emitOp 3 "q" [] initZ = (initZ, some false) :=
  (emit_no_listeners_false 3 initZ "q" [] (by decide)).1

/-- Claim C3 counterexample: starting from a fresh emitter, `on("z", 1)` then
the targeted `off("z", 1)` removes the last listener for `"z"` but leaves the
key `"z"` in the registry mapped to the empty sequence — the key is not
dropped, so the claimed invariant fails. -/
theorem off_last_listener_keeps_key :
    lookupEvents (offOp (onOp initZ "z" 1) "z" (some 1)).events "z" = some []
    ∧ (offOp (onOp initZ "z" 1) "z" (some 1)).events = [("z", [])] := by
  decide

/-- Claim C3 (amended): a targeted `off(e, f)` always retains the key `e`
(mapping it to the filtered sequence, which may be empty) rather than
dropping it; `emit` treats such an empty entry identically to an absent key
(returns `false`, invokes nothing, leaves the state unchanged); only the
untargeted `off(e)` drops the key itself. -/
theorem off_empty_entry_semantics (s : EmitterState) (e : EventName)
    (f : Nat) (ls : List Nat) (fuel : Nat) (args : Args)
    (hls : lookupEvents s.events e = some ls)
    (hempty : ls.filter (fun x => x ≠ f) = []) :
    lookupEvents (offOp s e (some f)).events e = some []
    ∧ emitOp fuel e args (offOp s e (some f)) = (offOp s e (some f), some false)
    ∧ lookupEvents (offOp s e none).events e = none := by
  have h1 : lookupEvents (offOp s e (some f)).events e = some [] := by
    rw [offOp_target s e f ls hls]
    show lookupEvents (setEvents s.events e (ls.filter (fun x => x ≠ f))) e
      = some []
    rw [hempty]
    exact lookupEvents_set_self s.events e []
  exact ⟨h1, runEmit_nil _ e args _ h1, lookupEvents_offOp_all s e⟩

theorem off_empty_entry_semantics_witness :
    lookupEvents (offOp (onOp initZ "z" 1) "z" (some 1)).events "z" = some [] :=
  (off_empty_entry_semantics (onOp initZ "z" 1) "z" 1 [1] 3 []
    (by decide) (by decide)).1

/-- Claim C6: `off` with no listeners registered for the name is a no-op in
both forms; `off(e)` with the listener omitted removes the entire sequence
for `e`, so a subsequent `emit(e)` returns `false`; `off(e, f)` removes every
occurrence of exactly the handle `f` (matched by identity) and retains the
other listeners for `e` in their original relative order. -/
theorem off_semantics (s : EmitterState) (e e0 : EventName) (f : Nat)
    (ls : List Nat) (fuel : Nat) (args : Args)
    (hls : lookupEvents s.events e = some ls)
    (h0 : lookupEvents s.events e0 = none) :
    offOp s e0 (some f) = s
    ∧ offOp s e0 none = s
    ∧ lookupEvents (offOp s e none).events e = none
    ∧ emitOp fuel e args (offOp s e none) = (offOp s e none, some false)
    ∧ lookupEvents (offOp s e (some f)).events e =
        some (ls.filter (fun x => x ≠ f)) := by
  refine ⟨offOp_absent s e0 (some f) h0, offOp_absent s e0 none h0,
    lookupEvents_offOp_all s e,
    runEmit_absent _ e args _ (lookupEvents_offOp_all s e), ?_⟩
  rw [offOp_target s e f ls hls]
  exact lookupEvents_set_self s.events e (ls.filter (fun x => x ≠ f))

theorem off_semantics_witness :
    offOp fgScenario "absent" (some 1) = fgScenario
    ∧ offOp fgScenario "absent" none = fgScenario
    ∧ lookupEvents (offOp fgScenario "x" none).events "x" = none
    ∧ emitOp 3 "x" [] (offOp fgScenario "x" none) =
        (offOp fgScenario "x" none, some false)
    ∧ lookupEvents (offOp fgScenario "x" (some 1)).events "x" =
        some ([1, 2].filter (fun x => x ≠ 1)) :=
  off_semantics fgScenario "x" "absent" 1 [1, 2] 3 [] (by decide) (by decide)

/-- Claim C4: with at least one listener registered for `e`, `emit` invokes
each entry of the snapshotted sequence — duplicates once per occurrence — in
original registration order, each invocation receiving exactly the emitted
arguments, and returns `true`; concretely `on("x", f)`; `on("x", g)`;
`emit("x", 1, 2)` invokes `f(1,2)` then `g(1,2)` and returns `true`, and a
doubly registered listener is invoked twice per `emit`. -/
theorem emit_invokes_in_order (fuel : Nat) (s : EmitterState) (e : EventName)
    (ls : List Nat) (args : Args)
    (hls : lookupEvents s.events e = some ls) (hne : ls ≠ [])
    (hpure : ∀ f ∈ ls, lookupEnv s.env f = some (Behavior.user [])) :
    emitOp (fuel + 1) e args s =
      ({ s with log := s.log ++ ls.map (fun f => (f, args)) }, some true)
    ∧ emitOp 1 "x" [1, 2] fgScenario =
        ({ fgScenario with log := [(1, [1, 2]), (2, [1, 2])] }, some true)
    ∧ emitOp 1 "d" [7] dupScenario =
        ({ dupScenario with log := [(1, [7]), (1, [7])] }, some true) :=
  ⟨runEmit_pure fuel s e ls args hls hne hpure, by decide, by decide⟩

theorem emit_invokes_in_order_witness :
    emitOp 1 "x" [1, 2] fgScenario =
      ({ fgScenario with
          log := fgScenario.log ++ [1, 2].map (fun f => (f, [1, 2])) },
        some true) :=
  (emit_invokes_in_order 0 fgScenario "x" [1, 2] [1, 2]
    (by decide) (by decide) (by decide)).1

/-- Claim C9: if the listener at position `k` of the snapshot throws during
`emit`, the failure propagates to the caller of `emit` (result `none`; the
emitter never catches, recovers or aggregates) and no listener after the
`k`-th in that snapshot is invoked — the result is exactly the state reached
after invoking the prefix and then the throwing listener; concretely with
three listeners for `"t"` of which the second throws, only the first two are
invoked and the failure propagates. -/
theorem emit_throw_propagates
    (inv : Nat → Args → EmitterState → EmitterState × Bool)
    (e : EventName) (args : Args) (s : EmitterState)
    (pre : List Nat) (k : Nat) (post : List Nat)
    (hls : lookupEvents s.events e = some (pre ++ k :: post))
    (hpre : noThrowChain inv args pre s = true)
    (hk : (inv k args (invokeChain inv args pre s)).2 = true) :
    runEmit inv e args s = ((inv k args (invokeChain inv args pre s)).1, none)
    ∧ (emitOp 9 "t" [] throwScenario).1.log = [(1, []), (2, [])]
    ∧ (emitOp 9 "t" [] throwScenario).2 = none := by
  refine ⟨?_, by decide, by decide⟩
  rw [runEmit, hls]
  simp only [List.length_eq_zero]
  rw [if_neg (by simp : ¬ (pre ++ k :: post) = [])]
  rw [runInvokeList_throw inv args k post pre s hpre hk]

theorem emit_throw_propagates_witness :
    runEmit (invoke 9) "t" [] throwScenario =
      ((invoke 9 2 [] (invokeChain (invoke 9) [] [1] throwScenario)).1, none) :=
  (emit_throw_propagates (invoke 9) "t" [] throwScenario [1] 2 [3]
    (by decide) (by decide) (by decide)).1

/-- Claim C1: the snapshot taken at the start of `emit` is exactly what gets
invoked by that call — whatever registry mutations the invoked listeners
perform, the call invokes precisely the snapshotted sequence in order (the
result is the chain of those invocations); concretely, a listener added to
`"e"` during an in-progress `emit("e")` is not invoked during that call but
is invoked on the next `emit("e")`, and a listener removed from `"e"` during
an in-progress `emit("e")` is still invoked during that call because it is in
the snapshot. -/
theorem emit_snapshot_semantics
    (inv : Nat → Args → EmitterState → EmitterState × Bool)
    (e : EventName) (args : Args) (s : EmitterState) (ls : List Nat)
    (hls : lookupEvents s.events e = some ls) (hne : ls ≠ [])
    (hnt : noThrowChain inv args ls s = true) :
    runEmit inv e args s = (invokeChain inv args ls s, some true)
    ∧ (emitOp 9 "e" [] addScenario).1.log = [(1, [])]
    ∧ lookupEvents (emitOp 9 "e" [] addScenario).1.events "e" = some [1, 2]
    ∧ (emitOp 9 "e" [] (emitOp 9 "e" [] addScenario).1).1.log
        = [(1, []), (1, []), (2, [])]
    ∧ (emitOp 9 "e" [] removeScenario).1.log = [(1, []), (2, [])]
    ∧ lookupEvents (emitOp 9 "e" [] removeScenario).1.events "e" = some [1] :=
  ⟨runEmit_chain inv e args s ls hls hne hnt,
    by decide, by decide, by decide, by decide, by decide⟩

theorem emit_snapshot_semantics_witness :
    runEmit (invoke 3) "e" [] removeScenario =
      (invokeChain (invoke 3) [] [1, 2] removeScenario, some true) :=
  (emit_snapshot_semantics (invoke 3) "e" [] removeScenario [1, 2]
    (by decide) (by decide) (by decide)).1

/-- Claim C10 (frame): for distinct event names `e ≠ e'`, each of `on(e, f)`,
`off(e)`, `off(e, f)` and `once(e, f)` leaves the registry entry for `e'`
(presence and sequence) unchanged, and `emit(e, …)` whose listeners do not
themselves mutate the registry (inert user listeners) leaves the entire
registry unchanged. -/
theorem frame_other_events (s : EmitterState) (e e' : EventName) (f : Nat)
    (fuel : Nat) (args : Args) (hne : e ≠ e')
    (hpure : ∀ g ∈ (lookupEvents s.events e).getD [],
      lookupEnv s.env g = some (Behavior.user [])) :
    lookupEvents (onOp s e f).events e' = lookupEvents s.events e'
    ∧ lookupEvents (offOp s e none).events e' = lookupEvents s.events e'
    ∧ lookupEvents (offOp s e (some f)).events e' = lookupEvents s.events e'
    ∧ lookupEvents (onceOp s e f).events e' = lookupEvents s.events e'
    ∧ (emitOp (fuel + 1) e args s).1.events = s.events := by
  refine ⟨?_, ?_, ?_, ?_, ?_⟩
  · cases h : lookupEvents s.events e with
    | none =>
        rw [onOp_absent s e f h]
        exact lookupEvents_set_other s.events e e' [f] hne
    | some ls =>
        rw [onOp_present s e f ls h]
        exact lookupEvents_set_other s.events e e' (ls ++ [f]) hne
  · cases h : lookupEvents s.events e with
    | none => rw [offOp_absent s e none h]
    | some ls =>
        rw [offOp_all s e ls h]
        exact lookupEvents_delete_other s.events e e' hne
  · cases h : lookupEvents s.events e with
    | none => rw [offOp_absent s e (some f) h]
    | some ls =>
        rw [offOp_target s e f ls h]
        exact lookupEvents_set_other s.events e e' (ls.filter (fun x => x ≠ f))
          hne
  · unfold onceOp
    cases h : lookupEvents s.events e with
    | none =>
        have h' : lookupEvents
            ({ s with
                env := s.env ++ [(s.nextId, Behavior.wrapper e f s.nextId)],
                nextId := s.nextId + 1 } : EmitterState).events e = none := h
        rw [onOp_absent _ e s.nextId h']
        exact lookupEvents_set_other s.events e e' [s.nextId] hne
    | some ls =>
        have h' : lookupEvents
            ({ s with
                env := s.env ++ [(s.nextId, Behavior.wrapper e f s.nextId)],
                nextId := s.nextId + 1 } : EmitterState).events e = some ls := h
        rw [onOp_present _ e s.nextId ls h']
        exact lookupEvents_set_other s.events e e' (ls ++ [s.nextId]) hne
  · cases h : lookupEvents s.events e with
    | none => rw [emitOp, runEmit_absent _ e args s h]
    | some ls =>
        cases ls with
        | nil => rw [emitOp, runEmit_nil _ e args s h]
        | cons g gs =>
            rw [emitOp, runEmit_pure fuel s e (g :: gs) args h (by simp)
              (fun x hx => hpure x (by rw [h]; exact hx))]

theorem frame_other_events_witness :
    lookupEvents (onOp fgScenario "x" 5).events "other" =
      lookupEvents fgScenario.events "other"
    ∧ lookupEvents (offOp fgScenario "x" none).events "other" =
        lookupEvents fgScenario.events "other"
    ∧ lookupEvents (offOp fgScenario "x" (some 5)).events "other" =
        lookupEvents fgScenario.events "other"
    ∧ lookupEvents (onceOp fgScenario "x" 5).events "other" =
        lookupEvents fgScenario.events "other"
    ∧ (emitOp (0 + 1) "x" [] fgScenario).1.events = fgScenario.events :=
  frame_other_events fgScenario "x" "other" 5 0 [] (by decide) (by decide)

/-- Claim C7: after `once(e, f)` on an emitter with no other listeners for
`e`, the first `emit(e, args)` invokes `f` exactly once with exactly `args`
and returns `true` (the log gains exactly the adapter's invocation followed
by one invocation of `f` with `args`), and the second `emit(e, args)` returns
`false` without invoking anything (the state is left unchanged). -/
theorem once_fires_exactly_once (fuel : Nat) (s : EmitterState)
    (e : EventName) (f : Nat) (args : Args)
    (hf : lookupEnv s.env f = some (Behavior.user []))
    (hfresh : lookupEnv s.env s.nextId = none)
    (he : lookupEvents s.events e = none ∨ lookupEvents s.events e = some []) :
    emitOp (fuel + 2) e args (onceOp s e f) =
      ({ s with events := setEvents s.events e [],
                env := s.env ++ [(s.nextId, Behavior.wrapper e f s.nextId)],
                nextId := s.nextId + 1,
                log := s.log ++ [(s.nextId, args), (f, args)] }, some true)
    ∧ emitOp fuel e args (emitOp (fuel + 2) e args (onceOp s e f)).1 =
        ((emitOp (fuel + 2) e args (onceOp s e f)).1, some false) := by
  have honce : onceOp s e f =
      { s with events := setEvents s.events e [s.nextId],
               env := s.env ++ [(s.nextId, Behavior.wrapper e f s.nextId)],
               nextId := s.nextId + 1 } := by
    unfold onceOp
    cases he with
    | inl h =>
        have h' : lookupEvents
            ({ s with
                env := s.env ++ [(s.nextId, Behavior.wrapper e f s.nextId)],
                nextId := s.nextId + 1 } : EmitterState).events e = none := h
        rw [onOp_absent _ e s.nextId h']
    | inr h =>
        have h' : lookupEvents
            ({ s with
                env := s.env ++ [(s.nextId, Behavior.wrapper e f s.nextId)],
                nextId := s.nextId + 1 } : EmitterState).events e = some [] := h
        rw [onOp_present _ e s.nextId [] h']
        simp
  have hr := runEmit_once fuel
    { s with events := setEvents s.events e [s.nextId],
             env := s.env ++ [(s.nextId, Behavior.wrapper e f s.nextId)],
             nextId := s.nextId + 1 }
    e f s.nextId args
    (lookupEvents_set_self s.events e [s.nextId])
    (lookupEnv_append_fresh s.env s.nextId _ hfresh)
    (lookupEnv_append_of_some s.env _ f _ hf)
  have hfst : emitOp (fuel + 2) e args (onceOp s e f) =
      ({ s with events := setEvents s.events e [],
                env := s.env ++ [(s.nextId, Behavior.wrapper e f s.nextId)],
                nextId := s.nextId + 1,
                log := s.log ++ [(s.nextId, args), (f, args)] }, some true) := by
    rw [honce, emitOp, hr]
    simp [setEvents_setEvents]
  refine ⟨hfst, ?_⟩
  rw [hfst]
  exact runEmit_nil _ e args _ (lookupEvents_set_self s.events e [])

theorem once_fires_exactly_once_witness :
    emitOp 3 "e" [5] (onceOp onceBase "e" 1) =
      ({ onceBase with
          events := setEvents onceBase.events "e" [],
          env := onceBase.env ++
            [(onceBase.nextId, Behavior.wrapper "e" 1 onceBase.nextId)],
          nextId := onceBase.nextId + 1,
          log := onceBase.log ++ [(onceBase.nextId, [5]), (1, [5])] },
        some true) :=
  (once_fires_exactly_once 1 onceBase "e" 1 [5]
    (by decide) (by decide) (by decide)).1

/-- Claim C8: calling `off(e, f)` with the original function reference after
`once(e, f)` does not remove the once-registration — the registry holds the
adapter's identity, not the original's, so the entry for `e` still holds
exactly the adapter, and a subsequent `emit(e, args)` still invokes `f`. -/
theorem off_original_keeps_once (fuel : Nat) (s : EmitterState)
    (e : EventName) (f : Nat) (args : Args)
    (hf : lookupEnv s.env f = some (Behavior.user []))
    (hfresh : lookupEnv s.env s.nextId = none)
    (he : lookupEvents s.events e = none ∨ lookupEvents s.events e = some []) :
    lookupEvents (offOp (onceOp s e f) e (some f)).events e = some [s.nextId]
    ∧ emitOp (fuel + 2) e args (offOp (onceOp s e f) e (some f)) =
        ({ s with events := setEvents s.events e [],
                  env := s.env ++ [(s.nextId, Behavior.wrapper e f s.nextId)],
                  nextId := s.nextId + 1,
                  log := s.log ++ [(s.nextId, args), (f, args)] },
          some true) := by
  have honce : onceOp s e f =
      { s with events := setEvents s.events e [s.nextId],
               env := s.env ++ [(s.nextId, Behavior.wrapper e f s.nextId)],
               nextId := s.nextId + 1 } := by
    unfold onceOp
    cases he with
    | inl h =>
        have h' : lookupEvents
            ({ s with
                env := s.env ++ [(s.nextId, Behavior.wrapper e f s.nextId)],
                nextId := s.nextId + 1 } : EmitterState).events e = none := h
        rw [onOp_absent _ e s.nextId h']
    | inr h =>
        have h' : lookupEvents
            ({ s with
                env := s.env ++ [(s.nextId, Behavior.wrapper e f s.nextId)],
                nextId := s.nextId + 1 } : EmitterState).events e = some [] := h
        rw [onOp_present _ e s.nextId [] h']
        simp
  have hneq : s.nextId ≠ f := by
    intro hcontra
    rw [hcontra, hf] at hfresh
    cases hfresh
  have hfilter : [s.nextId].filter (fun x => x ≠ f) = [s.nextId] := by
    simp [hneq]
  have hoff : offOp (onceOp s e f) e (some f) = onceOp s e f := by
    rw [honce]
    rw [offOp_target _ e f [s.nextId] (lookupEvents_set_self s.events e
      [s.nextId])]
    rw [hfilter]
    simp [setEvents_setEvents]
  have hr := runEmit_once fuel
    { s with events := setEvents s.events e [s.nextId],
             env := s.env ++ [(s.nextId, Behavior.wrapper e f s.nextId)],
             nextId := s.nextId + 1 }
    e f s.nextId args
    (lookupEvents_set_self s.events e [s.nextId])
    (lookupEnv_append_fresh s.env s.nextId _ hfresh)
    (lookupEnv_append_of_some s.env _ f _ hf)
  refine ⟨?_, ?_⟩
  · rw [hoff, honce]
    exact lookupEvents_set_self s.events e [s.nextId]
  · rw [hoff, honce, emitOp, hr]
    simp [setEvents_setEvents]

theorem off_original_keeps_once_witness :
    lookupEvents (offOp (onceOp onceBase "e" 1) "e" (some 1)).events "e" =
      some [onceBase.nextId] :=
  (off_original_keeps_once 1 onceBase "e" 1 [5]
    (by decide) (by decide) (by decide)).1

/-- Claim C2 counterexample: `once("e", 1)` where listener `1` re-entrantly
emits `"e"` from inside its own body — within the single outer `emit`, the
one-shot adapter (identifier `2`) is invoked at least twice, because the
source removes the adapter only after the inner listener returns, so removal
does not precede re-entrant firing. -/
theorem once_adapter_reinvoked :
    2 ≤ (emitOp 5 "e" [] reentrantScenario).1.log.count (2, [])
    ∧ lookupEnv reentrantScenario.env 2 = some (Behavior.wrapper "e" 1 2)
    ∧ lookupEvents reentrantScenario.events "e" = some [2] := by
  decide

/-- Claim C2 (amended): the one-shot adapter removes itself immediately after
the original listener returns, not before it runs: when the inner listener's
invocation returns without throwing, invoking the adapter equals that inner
invocation followed by identity-based removal of the adapter, so afterwards
the adapter is filtered out of the event's sequence and cannot fire on later
emits; the guarantee that the same adapter instance is never invoked twice
holds only when the listener does not itself re-entrantly fire the event
(the counterexample shows a re-entrant `emit` from within the listener does
re-invoke the adapter before removal). -/
theorem once_adapter_removes_after_listener (fuel : Nat) (w f : Nat)
    (e : EventName) (args : Args) (s : EmitterState) (ls : List Nat)
    (hw : lookupEnv s.env w = some (Behavior.wrapper e f w))
    (hnothrow :
      (invoke fuel f args { s with log := s.log ++ [(w, args)] }).2 = false)
    (hls : lookupEvents
        (invoke fuel f args { s with log := s.log ++ [(w, args)] }).1.events e
        = some ls) :
    invoke (fuel + 1) w args s =
      (offOp (invoke fuel f args { s with log := s.log ++ [(w, args)] }).1
        e (some w), false)
    ∧ lookupEvents (invoke (fuel + 1) w args s).1.events e
        = some (ls.filter (fun x => x ≠ w)) := by
  have h1 := invoke_wrapper_step fuel w f e args s hw hnothrow
  refine ⟨h1, ?_⟩
  rw [h1]
  show lookupEvents
    (offOp (invoke fuel f args { s with log := s.log ++ [(w, args)] }).1
      e (some w)).events e = some (ls.filter (fun x => x ≠ w))
  rw [offOp_target _ e w ls hls]
  exact lookupEvents_set_self _ e (ls.filter (fun x => x ≠ w))

theorem once_adapter_removes_after_listener_witness :
    lookupEvents (invoke 2 2 [] onceScenario).1.events "e" =
      some ([2].filter (fun x => x ≠ 2)) :=
  (once_adapter_removes_after_listener 1 2 1 "e" [] onceScenario [2]
    (by decide) (by decide) (by decide)).2

end BareEmitter
